import Mathlib

/-!
Verification of the solar-system simulator core (src/orbitor.rs, src/main.rs).

The Rust code is shallowly embedded over the real numbers: every f64 value is
modelled as a real number, Rust's remainder operator on floats is modelled as
the exact truncated remainder, f64::atan2 as the complex argument, and
f64::sqrt, sin, cos as the corresponding real functions.  Option-returning
Rust functions become Option-valued Lean functions; Option::unwrap is
modelled by a total function whose panic case yields a junk value.
-/

noncomputable section

/-- Tau, the full-circle constant std::f64::consts::TAU. -/
def TAU : ℝ := 2 * Real.pi

/-- Degree-to-radian conversion deg_to_rad from orbitor.rs. -/
def deg_to_rad (x : ℝ) : ℝ := x * TAU / 360

/-- Radian-to-degree conversion rad_to_deg from orbitor.rs. -/
def rad_to_deg (x : ℝ) : ℝ := x / TAU * 360

/-- The gravitational constant G from orbitor.rs. -/
def G : ℝ := 6.67430e-11

/-- The distance-scaling divisor SCALING_FACTOR from orbitor.rs. -/
def SCALING_FACTOR : ℝ := 25000000.0

/-- Truncation toward zero, the rounding used by Rust float remainder. -/
def rustTrunc (x : ℝ) : ℝ := if 0 ≤ x then (⌊x⌋ : ℝ) else (⌈x⌉ : ℝ)

/-- Rust remainder operator on f64 values: a - b * trunc (a / b), the exact
value of fmod when no rounding occurs. -/
def f64Rem (a b : ℝ) : ℝ := a - b * rustTrunc (a / b)

/-- Rust f64::atan2: atan2 y x is the argument of the point (x, y), in
the interval (-pi, pi]. -/
def atan2 (y x : ℝ) : ℝ := Complex.arg ⟨x, y⟩

/-- The two-field tuple struct Point2D from orbitor.rs. -/
structure Point2D where
  x : ℝ
  y : ℝ

/-- Componentwise addition, impl Add for Point2D. -/
def Point2D.add (p q : Point2D) : Point2D := ⟨p.x + q.x, p.y + q.y⟩

/-- Componentwise subtraction, impl Sub for Point2D. -/
def Point2D.sub (p q : Point2D) : Point2D := ⟨p.x - q.x, p.y - q.y⟩

/-- The three-field tuple struct Point3D from orbitor.rs. -/
structure Point3D where
  x : ℝ
  y : ℝ
  z : ℝ

/-- Componentwise addition, impl Add for Point3D. -/
def Point3D.add (p q : Point3D) : Point3D := ⟨p.x + q.x, p.y + q.y, p.z + q.z⟩

/-- Componentwise subtraction, impl Sub for Point3D. -/
def Point3D.sub (p q : Point3D) : Point3D := ⟨p.x - q.x, p.y - q.y, p.z - q.z⟩

/-- Componentwise division of a 3-D point by a scalar divisor, the
distance-scaling operation as the spec words it. -/
def Point3D.divScale (p : Point3D) (k : ℝ) : Point3D := ⟨p.x / k, p.y / k, p.z / k⟩

/-- An RGB display color, standing in for plotters::style::RGBColor. -/
structure RGBColor where
  r : ℕ
  g : ℕ
  b : ℕ

/-- The struct StaticObject from orbitor.rs. -/
structure StaticObject where
  mass : ℝ
  x : ℝ
  y : ℝ
  z : ℝ

/-- Locatable::xyz for StaticObject: the fixed position, ignoring time. -/
def StaticObject.xyz (s : StaticObject) (_time : ℝ) : Point3D := ⟨s.x, s.y, s.z⟩

/-- Locatable::xy for StaticObject: the (x, z) projection, ignoring time. -/
def StaticObject.xy (s : StaticObject) (_time : ℝ) : Point2D := ⟨s.x, s.z⟩

mutual

/-- The enum SolarSystemObject from orbitor.rs.  The Variable variant holds a
time-indexed family of orbitors, as the Rust closure field does. -/
inductive SolarSystemObject where
  | static (name : String) (color : RGBColor) (s : StaticObject)
  | orbit (name : String) (color : RGBColor) (o : Orbitor)
  | var (name : String) (color : RGBColor) (f : ℝ → Orbitor)

/-- The struct Orbitor from orbitor.rs: mass, parent object and the six
orbital elements. -/
inductive Orbitor where
  | mk (mass : ℝ) (parent : SolarSystemObject) (semimajor : ℝ)
      (eccentricity : ℝ) (inclination : ℝ) (lan : ℝ) (aop : ℝ) (mae : ℝ)

end

/-- Field accessor for Orbitor.mass. -/
def Orbitor.mass : Orbitor → ℝ
  | .mk m _ _ _ _ _ _ _ => m

/-- Field accessor for Orbitor.parent. -/
def Orbitor.parent : Orbitor → SolarSystemObject
  | .mk _ p _ _ _ _ _ _ => p

/-- Field accessor for Orbitor.semimajor. -/
def Orbitor.semimajor : Orbitor → ℝ
  | .mk _ _ a _ _ _ _ _ => a

/-- Field accessor for Orbitor.eccentricity. -/
def Orbitor.eccentricity : Orbitor → ℝ
  | .mk _ _ _ e _ _ _ _ => e

/-- Field accessor for Orbitor.inclination. -/
def Orbitor.inclination : Orbitor → ℝ
  | .mk _ _ _ _ i _ _ _ => i

/-- Field accessor for Orbitor.lan (longitude of the ascending node). -/
def Orbitor.lan : Orbitor → ℝ
  | .mk _ _ _ _ _ l _ _ => l

/-- Field accessor for Orbitor.aop (argument of periapsis). -/
def Orbitor.aop : Orbitor → ℝ
  | .mk _ _ _ _ _ _ a _ => a

/-- Field accessor for Orbitor.mae (mean anomaly at epoch). -/
def Orbitor.mae : Orbitor → ℝ
  | .mk _ _ _ _ _ _ _ m => m

/-- SolarSystemObject::get_name from orbitor.rs. -/
def SolarSystemObject.get_name : SolarSystemObject → String
  | .static name _ _ => name
  | .orbit name _ _ => name
  | .var name _ _ => name

/-- SolarSystemObject::get_mass from orbitor.rs; the Variable variant samples
its closure at time 0. -/
def SolarSystemObject.get_mass : SolarSystemObject → ℝ
  | .static _ _ s => s.mass
  | .orbit _ _ o => o.mass
  | .var _ _ f => (f 0).mass

/-- Discriminator for the Static variant. -/
def SolarSystemObject.isStatic : SolarSystemObject → Bool
  | .static _ _ _ => true
  | .orbit _ _ _ => false
  | .var _ _ _ => false

mutual

/-- Orbitor::orbital_period from orbitor.rs: if the parent has an orbital
period of its own, that period is returned unchanged; only when the parent
has none is the two-body Keplerian period computed from this body. -/
def Orbitor.orbital_period : Orbitor → ℝ → ℝ
  | .mk mass parent semimajor _ _ _ _ _, time =>
    match SolarSystemObject.orbital_period parent time with
    | some period => period
    | none =>
      let mu := G * (mass + SolarSystemObject.get_mass parent)
      TAU / Real.sqrt (mu / semimajor ^ 3)

/-- SolarSystemObject::orbital_period from orbitor.rs: None for Static,
Some of the orbitor period otherwise. -/
def SolarSystemObject.orbital_period : SolarSystemObject → ℝ → Option ℝ
  | .orbit _ _ o, start_time => some (Orbitor.orbital_period o start_time)
  | .static _ _ _, _ => none
  | .var _ _ f, start_time => some (Orbitor.orbital_period (f start_time) start_time)

end

/-- Orbitor::current_mean_anomaly from orbitor.rs: 0 for a degenerate orbit,
the epoch value at time 0, otherwise the propagated anomaly reduced by the
Rust remainder operator. -/
def Orbitor.current_mean_anomaly (o : Orbitor) (time : ℝ) : ℝ :=
  if o.semimajor = 0 then 0
  else if time = 0 then o.mae
  else
    let mu := G * (o.mass + SolarSystemObject.get_mass o.parent)
    f64Rem (o.mae + time * Real.sqrt (mu / o.semimajor ^ 3)) TAU

/-- The body of the fixed-count Newton-Raphson loop in
Orbitor::eccentric_anomaly: n iterations of the update starting from the
mean anomaly. -/
def eccLoop (e mean_anomaly : ℝ) : ℕ → ℝ
  | 0 => mean_anomaly
  | n + 1 =>
    let ecc := eccLoop e mean_anomaly n
    ecc - (ecc - e * Real.sin ecc - mean_anomaly) / (1 - e * Real.cos ecc)

/-- Orbitor::eccentric_anomaly from orbitor.rs: exactly 5 Newton-Raphson
iterations seeded at the mean anomaly. -/
def Orbitor.eccentric_anomaly (o : Orbitor) (mean_anomaly : ℝ) : ℝ :=
  eccLoop o.eccentricity mean_anomaly 5

/-- Orbitor::true_anomaly from orbitor.rs. -/
def Orbitor.true_anomaly (o : Orbitor) (ecc_anomaly : ℝ) : ℝ :=
  let left_term := Real.sqrt (1 + o.eccentricity) * Real.sin (ecc_anomaly / 2)
  let right_term := Real.sqrt (1 - o.eccentricity) * Real.cos (ecc_anomaly / 2)
  2 * atan2 left_term right_term

/-- Orbitor::orbit_xy from orbitor.rs: position in the orbital plane. -/
def Orbitor.orbit_xy (o : Orbitor) (time : ℝ) : Point2D :=
  let mean_anom := o.current_mean_anomaly time
  let ecc_anom := o.eccentric_anomaly mean_anom
  let true_anom := o.true_anomaly ecc_anom
  let radius := o.semimajor * (1 - o.eccentricity * Real.cos ecc_anom)
  ⟨radius * Real.cos true_anom, radius * Real.sin true_anom⟩

/-- Orbitor::in_parent_coordinates from orbitor.rs: the three-rotation
composition applied to an orbital-plane point, with the second and third
output components swapped on return. -/
def Orbitor.in_parent_coordinates (o : Orbitor) (orbit_loc : Point2D) : Point3D :=
  let ox := orbit_loc.x
  let oy := orbit_loc.y
  let aopcos := Real.cos o.aop
  let aopsin := Real.sin o.aop
  let lancos := Real.cos o.lan
  let lansin := Real.sin o.lan
  let inccos := Real.cos o.inclination
  let incsin := Real.sin o.inclination
  let x := ox * (aopcos * lancos - aopsin * inccos * lansin)
    - oy * (aopsin * lancos + aopcos * inccos * lansin)
  let y := ox * (aopcos * lansin + aopsin * inccos * lancos)
    + oy * (aopcos * inccos * lancos - aopsin * lansin)
  let z := ox * aopsin * incsin + oy * aopcos * incsin
  ⟨x, z, y⟩

mutual

/-- Locatable::xyz for Orbitor from orbitor.rs: parent position plus the
rotated orbital offset with each component divided by SCALING_FACTOR. -/
def Orbitor.xyz : Orbitor → ℝ → Point3D
  | o@(.mk _ parent _ _ _ _ _ _), time =>
    let p := SolarSystemObject.xyz parent time
    let q := Orbitor.in_parent_coordinates o (Orbitor.orbit_xy o time)
    ⟨p.x + q.x / SCALING_FACTOR, p.y + q.y / SCALING_FACTOR, p.z + q.z / SCALING_FACTOR⟩

/-- Locatable::xyz for SolarSystemObject from orbitor.rs. -/
def SolarSystemObject.xyz : SolarSystemObject → ℝ → Point3D
  | .static _ _ s, time => StaticObject.xyz s time
  | .orbit _ _ o, time => Orbitor.xyz o time
  | .var _ _ f, time => Orbitor.xyz (f time) time

end

/-- Locatable::xy for Orbitor from orbitor.rs: the (x, z) projection of the
3-D position. -/
def Orbitor.xy (o : Orbitor) (time : ℝ) : Point2D :=
  let p := o.xyz time
  ⟨p.x, p.z⟩

/-- Locatable::xy for SolarSystemObject from orbitor.rs. -/
def SolarSystemObject.xy : SolarSystemObject → ℝ → Point2D
  | .static _ _ s, time => StaticObject.xy s time
  | .orbit _ _ o, time => Orbitor.xy o time
  | .var _ _ f, time => Orbitor.xy (f time) time

/-- Locatable::angle_rad default method from orbitor.rs, instantiated at
SolarSystemObject: atan2 of the 2-D difference, shifted by TAU and reduced
by the Rust remainder operator. -/
def SolarSystemObject.angle_rad (self other : SolarSystemObject) (time : ℝ) : ℝ :=
  let p := SolarSystemObject.xy self time
  let q := SolarSystemObject.xy other time
  f64Rem (atan2 (p.y - q.y) (p.x - q.x) + TAU) TAU

/-- Locatable::angle_deg default method from orbitor.rs. -/
def SolarSystemObject.angle_deg (self other : SolarSystemObject) (time : ℝ) : ℝ :=
  rad_to_deg (SolarSystemObject.angle_rad self other time)

/-- Rust Option::unwrap on an f64 Option.  The panicking None case is
modelled by the junk value 0; the safety theorems show the call sites in the
trajectory functions never reach it. -/
def f64Unwrap (x : Option ℝ) : ℝ := x.getD 0

/-- SolarSystemObject::trajectory_2d from orbitor.rs: a single point for a
Static object, otherwise num_points + 1 samples of xy spaced over one
orbital period starting at start_time. -/
def SolarSystemObject.trajectory_2d (obj : SolarSystemObject) (start_time : ℝ)
    (num_points : ℤ) : List Point2D :=
  match obj with
  | .static _ _ s => [StaticObject.xy s start_time]
  | _ =>
    let time_range := f64Unwrap (SolarSystemObject.orbital_period obj start_time)
    (List.range (num_points + 1).toNat).map
      (fun (x : ℕ) => SolarSystemObject.xy obj ((x : ℝ) * time_range / (num_points : ℝ) + start_time))

/-- SolarSystemObject::trajectory_3d from orbitor.rs: a single point (sampled
at time 0) for a Static object, otherwise num_points + 1 samples of xyz
spaced over one orbital period starting at start_time. -/
def SolarSystemObject.trajectory_3d (obj : SolarSystemObject) (start_time : ℝ)
    (num_points : ℤ) : List Point3D :=
  match obj with
  | .static _ _ s => [StaticObject.xyz s 0]
  | _ =>
    let time_range := f64Unwrap (SolarSystemObject.orbital_period obj start_time)
    (List.range (num_points + 1).toNat).map
      (fun (x : ℕ) => SolarSystemObject.xyz obj ((x : ℝ) * time_range / (num_points : ℝ) + start_time))

/-- The zodiac table built in SolarSystem::new in orbitor.rs: twelve sector
names keyed by their starting angle in degrees. -/
def zodiacTable : List (ℤ × String) :=
  [(0, "Aries"), (30, "Taurus"), (60, "Gemini"), (90, "Cancer"), (120, "Leo"),
   (150, "Virgo"), (180, "Libra"), (210, "Scorpio"), (240, "Sagittarius"),
   (270, "Capricorn"), (300, "Aquarius"), (330, "Pisces")]

/-- The angle-to-sector lookup performed in SolarSystem::plot_2d in
orbitor.rs: floor the angle down to the nearest multiple of 30 degrees and
look that key up in the zodiac table. -/
def sign_lookup (angle : ℝ) : Option String :=
  zodiacTable.lookup (⌊angle / 30⌋ * 30)

/-- Length of one day in the internal epoch-relative time unit, from
convert_datetime in orbitor.rs, which maps a span of d Julian days to
d / 365.25 * 997.94 internal units. -/
def DAY : ℝ := 997.94 / 365.25

/-- Length of one second in the internal time unit. -/
def SECOND : ℝ := DAY / 86400

/-- Modelled from the spec: the PlanetarySystem state of section 3 of the
spec (the registry methods next_time_in_sign_dt and zodiac_for_dt called
from main.rs are absent from src/): an ordered list of bodies, the
designated zodiac-reference body, and the ordered list of zodiac sector
names. -/
structure PlanetarySystem where
  bodies : List SolarSystemObject
  refBody : SolarSystemObject
  zodiac : List String

/-- Modelled from the spec: case-insensitive body lookup by name. -/
def lookup_body (sys : PlanetarySystem) (name : String) : Option SolarSystemObject :=
  sys.bodies.find? (fun b => (SolarSystemObject.get_name b).toLower == name.toLower)

/-- Modelled from the spec: sector_angle_range of section 4.3, giving sector
i of N the range from i * 360 / N to (i + 1) * 360 / N degrees, with
lower-cased exact name matching. -/
def sector_angle_range (zod : List String) (name : String) : Option (ℝ × ℝ) :=
  match zod.findIdx? (fun s => s == name.toLower) with
  | some i =>
    some ((i : ℝ) * (360 / (zod.length : ℝ)), ((i : ℝ) + 1) * (360 / (zod.length : ℝ)))
  | none => none

/-- Boolean membership test of an angle in a half-open sector range. -/
def in_sector (lo hi θ : ℝ) : Bool := decide (lo ≤ θ ∧ θ < hi)

/-- Linear scan helper: firstHitAux test i fuel returns the first index k
with i ≤ k < i + fuel satisfying test, scanning upward from i. -/
def firstHitAux (test : ℕ → Bool) : ℕ → ℕ → Option ℕ
  | _, 0 => none
  | i, fuel + 1 => if test i then some i else firstHitAux test (i + 1) fuel

/-- Linear scan: the first index k < n satisfying test. -/
def firstHit (test : ℕ → Bool) (n : ℕ) : Option ℕ := firstHitAux test 0 n

/-- Modelled from the spec: next_time_in_sector of section 4.4 (the
implementation behind next_time_in_sign_dt called from main.rs is absent
from src/).  Resolve body and sector, returning none if either lookup
fails; scan forward one day at a time from start_time, bounded by the
floor of the product of the two orbital periods (each defaulting to 1 when
absent) taken as a count of days; at each day test whether the bearing of
the reference body as seen from the target body lies in the sector range;
on the first in-sector day refine by one-second steps from the previous day
boundary, returning the first in-sector second-level instant, or the
day-level instant if no second-level instant matches; return none when the
window is exhausted. -/
def next_time_in_sector (sys : PlanetarySystem) (body_name sector_name : String)
    (start_time : ℝ) : Option ℝ :=
  match lookup_body sys body_name, sector_angle_range sys.zodiac sector_name with
  | some body, some (lo, hi) =>
    let p1 := (SolarSystemObject.orbital_period body start_time).getD 1
    let p2 := (SolarSystemObject.orbital_period sys.refBody start_time).getD 1
    let maxDays := (⌊p1 * p2⌋).toNat
    let test := fun t : ℝ => in_sector lo hi (SolarSystemObject.angle_deg sys.refBody body t)
    match firstHit (fun d => test (start_time + ((d : ℝ) + 1) * DAY)) maxDays with
    | some d =>
      match firstHit (fun s => test (start_time + (d : ℝ) * DAY + (s : ℝ) * SECOND)) 86400 with
      | some s => some (start_time + (d : ℝ) * DAY + (s : ℝ) * SECOND)
      | none => some (start_time + ((d : ℝ) + 1) * DAY)
    | none => none
  | _, _ => none

/-- A plain white display color used by the concrete fixtures below. -/
def whiteC : RGBColor := ⟨255, 255, 255⟩

/-- Concrete fixture: a static central body of mass 1 / G at the origin. -/
def sunCx : SolarSystemObject := .static "Sun" whiteC ⟨1 / G, 0, 0, 0⟩

/-- Concrete fixture: a massless circular orbitor of the static body with
unit semi-major axis, so that its two-body period is TAU. -/
def planetCx : Orbitor := .mk 0 sunCx 1 0 0 0 0 0

/-- Concrete fixture: the orbiting planet as a SolarSystemObject. -/
def planetObjCx : SolarSystemObject := .orbit "Planet" whiteC planetCx

/-- Concrete fixture: a moon of the planet with mass 4 / G and unit
semi-major axis, whose own two-body period is TAU / 2. -/
def moonCx : Orbitor := .mk (4 / G) planetObjCx 1 0 0 0 0 0

/-- Concrete fixture: an orbitor with eccentricity one half. -/
def halfEcc : Orbitor := .mk 1 sunCx 1 (1 / 2) 0 0 0 0

/-- C9: SolarSystemObject::orbital_period returns None exactly for the
Static variant; Orbit and Variable always yield Some duration. -/
theorem orbital_period_none_iff_static (obj : SolarSystemObject) (t : ℝ) :
    SolarSystemObject.orbital_period obj t = none ↔
      SolarSystemObject.isStatic obj = true := by
  cases obj <;> simp [SolarSystemObject.orbital_period, SolarSystemObject.isStatic]

/-- C10: for a non-Static object the orbital period is always present, so
the unwrap calls in trajectory_2d and trajectory_3d cannot panic in their
non-Static match arm. -/
theorem orbital_period_isSome_of_not_static (obj : SolarSystemObject) (t : ℝ)
    (h : SolarSystemObject.isStatic obj = false) :
    (SolarSystemObject.orbital_period obj t).isSome = true := by
  cases obj with
  | static name c s => simp [SolarSystemObject.isStatic] at h
  | orbit name c o => simp [SolarSystemObject.orbital_period]
  | var name c f => simp [SolarSystemObject.orbital_period]

/-- Witness for C10 at the concrete orbiting planet. -/
theorem orbital_period_isSome_witness :
    SolarSystemObject.isStatic planetObjCx = false ∧
    (SolarSystemObject.orbital_period planetObjCx 0).isSome = true := by
  have h : SolarSystemObject.isStatic planetObjCx = false := by
    simp [planetObjCx, SolarSystemObject.isStatic]
  exact ⟨h, orbital_period_isSome_of_not_static planetObjCx 0 h⟩

/-- C2: the absolute position of an orbiting body is the parent position
plus the rotated orbital-plane offset divided componentwise by
SCALING_FACTOR, the divisor being applied before the addition. -/
theorem xyz_parent_plus_scaled_offset (o : Orbitor) (t : ℝ) :
    Orbitor.xyz o t =
      Point3D.add (SolarSystemObject.xyz (Orbitor.parent o) t)
        (Point3D.divScale (Orbitor.in_parent_coordinates o (Orbitor.orbit_xy o t))
          SCALING_FACTOR) := by
  cases o with
  | mk m p a e i l ap me =>
    simp [Orbitor.xyz, Orbitor.parent, Point3D.add, Point3D.divScale]

/-- C3: the rotation into parent coordinates computes the three standard
rotation-composition components and returns the point with the second and
third components swapped. -/
theorem in_parent_coordinates_formula (o : Orbitor) (ox oy : ℝ) :
    Orbitor.in_parent_coordinates o ⟨ox, oy⟩ =
      ⟨ox * (Real.cos o.aop * Real.cos o.lan
          - Real.sin o.aop * Real.cos o.inclination * Real.sin o.lan)
        - oy * (Real.sin o.aop * Real.cos o.lan
          + Real.cos o.aop * Real.cos o.inclination * Real.sin o.lan),
       ox * Real.sin o.aop * Real.sin o.inclination
        + oy * Real.cos o.aop * Real.sin o.inclination,
       ox * (Real.cos o.aop * Real.sin o.lan
          + Real.sin o.aop * Real.cos o.inclination * Real.cos o.lan)
        + oy * (Real.cos o.aop * Real.cos o.inclination * Real.cos o.lan
          - Real.sin o.aop * Real.sin o.lan)⟩ := by
  simp [Orbitor.in_parent_coordinates]

/-- The Newton-Raphson loop unfolds to iterated application of the update
map seeded at the mean anomaly. -/
theorem eccLoop_eq_iterate (e M : ℝ) (n : ℕ) :
    eccLoop e M n =
      (fun E => E - (E - e * Real.sin E - M) / (1 - e * Real.cos E))^[n] M := by
  induction n with
  | zero => simp [eccLoop]
  | succ k ih => rw [Function.iterate_succ_apply']; simp [eccLoop, ih]

/-- The Newton-Raphson loop fixes the zero mean anomaly. -/
theorem eccLoop_zero_fixed (e : ℝ) (n : ℕ) : eccLoop e 0 n = 0 := by
  induction n with
  | zero => rfl
  | succ k ih => simp [eccLoop, ih]

/-- C5: eccentric_anomaly performs exactly 5 Newton-Raphson iterations of
the update map seeded at the mean anomaly, and for eccentricities in
the interval from 0 inclusive to 1 exclusive it maps mean anomaly 0 to
exactly 0. -/
theorem eccentric_anomaly_newton (o : Orbitor) (M : ℝ) :
    Orbitor.eccentric_anomaly o M =
      (fun E => E - (E - o.eccentricity * Real.sin E - M)
        / (1 - o.eccentricity * Real.cos E))^[5] M ∧
    (0 ≤ o.eccentricity → o.eccentricity < 1 →
      Orbitor.eccentric_anomaly o 0 = 0) := by
  refine ⟨eccLoop_eq_iterate o.eccentricity M 5, fun h1 h2 => ?_⟩
  simp [Orbitor.eccentric_anomaly, eccLoop_zero_fixed]

/-- Witness for C5 at eccentricity one half. -/
theorem eccentric_anomaly_newton_witness :
    0 ≤ Orbitor.eccentricity halfEcc ∧ Orbitor.eccentricity halfEcc < 1 ∧
    Orbitor.eccentric_anomaly halfEcc 0 = 0 := by
  have h1 : 0 ≤ Orbitor.eccentricity halfEcc := by
    norm_num [halfEcc, Orbitor.eccentricity]
  have h2 : Orbitor.eccentricity halfEcc < 1 := by
    norm_num [halfEcc, Orbitor.eccentricity]
  exact ⟨h1, h2, (eccentric_anomaly_newton halfEcc 0).2 h1 h2⟩

/-- C4: the current mean anomaly is 0 for a degenerate orbit, the epoch
value exactly at time 0, and otherwise the propagated value reduced by the
Rust remainder operator modulo TAU. -/
theorem current_mean_anomaly_cases (o : Orbitor) (t : ℝ) :
    (Orbitor.semimajor o = 0 → Orbitor.current_mean_anomaly o t = 0) ∧
    (Orbitor.semimajor o ≠ 0 → Orbitor.current_mean_anomaly o 0 = Orbitor.mae o) ∧
    (Orbitor.semimajor o ≠ 0 → t ≠ 0 →
      Orbitor.current_mean_anomaly o t =
        f64Rem (Orbitor.mae o + t * Real.sqrt
          (G * (Orbitor.mass o + SolarSystemObject.get_mass (Orbitor.parent o))
            / Orbitor.semimajor o ^ 3)) TAU) := by
  refine ⟨fun h => ?_, fun h => ?_, fun h ht => ?_⟩
  · simp [Orbitor.current_mean_anomaly, h]
  · simp [Orbitor.current_mean_anomaly, h]
  · simp [Orbitor.current_mean_anomaly, h, ht]

/-- Witness for C4 at the concrete orbiting planet and time 1. -/
theorem current_mean_anomaly_witness :
    Orbitor.semimajor planetCx ≠ 0 ∧ (1 : ℝ) ≠ 0 ∧
    Orbitor.current_mean_anomaly planetCx 1 =
      f64Rem (Orbitor.mae planetCx + 1 * Real.sqrt
        (G * (Orbitor.mass planetCx + SolarSystemObject.get_mass (Orbitor.parent planetCx))
          / Orbitor.semimajor planetCx ^ 3)) TAU := by
  have h1 : Orbitor.semimajor planetCx ≠ 0 := by
    norm_num [planetCx, Orbitor.semimajor]
  exact ⟨h1, one_ne_zero, (current_mean_anomaly_cases planetCx 1).2.2 h1 one_ne_zero⟩

/-- C1 amended: orbital_period returns the parent period unchanged whenever
the parent has one, and computes the two-body period from this body's
semi-major axis and the combined mass of itself and its parent only when
the parent period is absent. -/
theorem orbital_period_parent_first (o : Orbitor) (t : ℝ) :
    (SolarSystemObject.orbital_period (Orbitor.parent o) t = none →
      Orbitor.orbital_period o t =
        TAU / Real.sqrt (G * (Orbitor.mass o
          + SolarSystemObject.get_mass (Orbitor.parent o))
          / Orbitor.semimajor o ^ 3)) ∧
    (∀ p, SolarSystemObject.orbital_period (Orbitor.parent o) t = some p →
      Orbitor.orbital_period o t = p) := by
  cases o with
  | mk m par a e i l ap me =>
    simp only [Orbitor.parent, Orbitor.mass, Orbitor.semimajor]
    constructor
    · intro h
      simp [Orbitor.orbital_period, h]
    · intro p hp
      simp [Orbitor.orbital_period, hp]

/-- Witness for the amended C1 at the concrete planet of the static sun. -/
theorem orbital_period_parent_first_witness :
    SolarSystemObject.orbital_period (Orbitor.parent planetCx) 0 = none ∧
    Orbitor.orbital_period planetCx 0 =
      TAU / Real.sqrt (G * (Orbitor.mass planetCx
        + SolarSystemObject.get_mass (Orbitor.parent planetCx))
        / Orbitor.semimajor planetCx ^ 3) := by
  have h : SolarSystemObject.orbital_period (Orbitor.parent planetCx) 0 = none := by
    simp [planetCx, Orbitor.parent, sunCx, SolarSystemObject.orbital_period]
  exact ⟨h, (orbital_period_parent_first planetCx 0).1 h⟩

/-- Counterexample to C1 as stated: the moon of the orbiting planet has
positive semi-major axis, yet its orbital_period is the parent period TAU
rather than its own two-body period TAU / 2. -/
theorem orbital_period_counterexample :
    0 < Orbitor.semimajor moonCx ∧
    Orbitor.orbital_period moonCx 0 ≠
      TAU / Real.sqrt (G * (Orbitor.mass moonCx
        + SolarSystemObject.get_mass (Orbitor.parent moonCx))
        / Orbitor.semimajor moonCx ^ 3) := by
  have hG : G ≠ 0 := by norm_num [G]
  have hTAU : 0 < TAU := by
    have := Real.pi_pos
    simp only [TAU]
    linarith
  have hL : Orbitor.orbital_period moonCx 0 = TAU := by
    have hplanet : Orbitor.orbital_period planetCx 0 = TAU := by
      simp only [planetCx, Orbitor.orbital_period, sunCx,
        SolarSystemObject.orbital_period, SolarSystemObject.get_mass]
      rw [show G * (0 + 1 / G) / 1 ^ 3 = 1 by field_simp, Real.sqrt_one, div_one]
    simp only [moonCx, Orbitor.orbital_period, planetObjCx,
      SolarSystemObject.orbital_period]
    exact hplanet
  have hR : TAU / Real.sqrt (G * (Orbitor.mass moonCx
      + SolarSystemObject.get_mass (Orbitor.parent moonCx))
      / Orbitor.semimajor moonCx ^ 3) = TAU / 2 := by
    simp only [moonCx, Orbitor.mass, Orbitor.parent, Orbitor.semimajor,
      planetObjCx, SolarSystemObject.get_mass, planetCx]
    rw [show G * (4 / G + 0) / (1 : ℝ) ^ 3 = 4 by field_simp,
      show (4 : ℝ) = 2 ^ 2 by norm_num, Real.sqrt_sq (by norm_num : (0 : ℝ) ≤ 2)]
  constructor
  · norm_num [moonCx, Orbitor.semimajor]
  · rw [hL, hR]
    intro heq
    linarith

/-- The full-circle constant is positive. -/
theorem TAU_pos : 0 < TAU := by
  simp only [TAU]
  linarith [Real.pi_pos]

/-- The Rust float remainder of a nonnegative value by a positive modulus
lies in the half-open interval from 0 to the modulus. -/
theorem f64Rem_nonneg_lt (s b : ℝ) (hb : 0 < b) (hs : 0 ≤ s) :
    0 ≤ f64Rem s b ∧ f64Rem s b < b := by
  have hbne : b ≠ 0 := ne_of_gt hb
  have htr : rustTrunc (s / b) = (⌊s / b⌋ : ℝ) := by
    simp [rustTrunc, div_nonneg hs hb.le]
  have key : f64Rem s b = b * Int.fract (s / b) := by
    simp only [f64Rem, htr, Int.fract]
    field_simp
  constructor
  · rw [key]
    exact mul_nonneg hb.le (Int.fract_nonneg _)
  · rw [key]
    calc b * Int.fract (s / b) < b * 1 :=
          mul_lt_mul_of_pos_left (Int.fract_lt_one _) hb
      _ = b := mul_one b

/-- Every multiple of 30 degrees between 0 and 330 is a key of the zodiac
table. -/
theorem zodiac_lookup_thirty (k : ℤ) (h0 : 0 ≤ k) (h12 : k < 12) :
    (zodiacTable.lookup (k * 30)).isSome = true := by
  interval_cases k <;> decide

/-- C7: whenever the two projected positions differ, angle_rad lies in the
interval from 0 inclusive to TAU exclusive and angle_deg in the interval
from 0 inclusive to 360 exclusive, and flooring angle_deg to the nearest
multiple of 30 always hits a key of the zodiac table, so the sector lookup
never returns none. -/
theorem angle_in_range_and_sign_total (self other : SolarSystemObject) (t : ℝ)
    (h : SolarSystemObject.xy self t ≠ SolarSystemObject.xy other t) :
    0 ≤ SolarSystemObject.angle_rad self other t ∧
    SolarSystemObject.angle_rad self other t < TAU ∧
    0 ≤ SolarSystemObject.angle_deg self other t ∧
    SolarSystemObject.angle_deg self other t < 360 ∧
    (sign_lookup (SolarSystemObject.angle_deg self other t)).isSome = true := by
  have hrad : SolarSystemObject.angle_rad self other t =
      f64Rem (atan2 ((SolarSystemObject.xy self t).y - (SolarSystemObject.xy other t).y)
        ((SolarSystemObject.xy self t).x - (SolarSystemObject.xy other t).x) + TAU) TAU := rfl
  set a := atan2 ((SolarSystemObject.xy self t).y - (SolarSystemObject.xy other t).y)
    ((SolarSystemObject.xy self t).x - (SolarSystemObject.xy other t).x) with ha
  have hlow : -Real.pi < a := Complex.neg_pi_lt_arg _
  have hs : 0 ≤ a + TAU := by
    simp only [TAU]
    linarith [Real.pi_pos]
  obtain ⟨hr0, hr1⟩ := f64Rem_nonneg_lt (a + TAU) TAU TAU_pos hs
  have hdeg : SolarSystemObject.angle_deg self other t =
      f64Rem (a + TAU) TAU / TAU * 360 := by
    rw [SolarSystemObject.angle_deg, hrad, rad_to_deg]
  have hd0 : 0 ≤ SolarSystemObject.angle_deg self other t := by
    rw [hdeg]
    exact mul_nonneg (div_nonneg hr0 TAU_pos.le) (by norm_num)
  have hd360 : SolarSystemObject.angle_deg self other t < 360 := by
    rw [hdeg]
    have hlt : f64Rem (a + TAU) TAU / TAU < 1 := (div_lt_one TAU_pos).mpr hr1
    linarith
  refine ⟨by rw [hrad]; exact hr0, by rw [hrad]; exact hr1, hd0, hd360, ?_⟩
  have hk0 : 0 ≤ ⌊SolarSystemObject.angle_deg self other t / 30⌋ :=
    Int.floor_nonneg.mpr (div_nonneg hd0 (by norm_num))
  have hk12 : ⌊SolarSystemObject.angle_deg self other t / 30⌋ < 12 := by
    apply Int.floor_lt.mpr
    rw [div_lt_iff₀ (by norm_num : (0:ℝ) < 30)]
    push_cast
    linarith
  exact zodiac_lookup_thirty _ hk0 hk12

/-- Concrete fixture: a static body at the origin. -/
def originCx : SolarSystemObject := .static "Origin" whiteC ⟨0, 0, 0, 0⟩

/-- Concrete fixture: a massless static body at unit distance on the x axis. -/
def unitXCx : SolarSystemObject := .static "UnitX" whiteC ⟨0, 1, 0, 0⟩

/-- Witness for C7 at two distinct static positions. -/
theorem angle_in_range_witness :
    SolarSystemObject.xy originCx 0 ≠ SolarSystemObject.xy unitXCx 0 ∧
    (0 ≤ SolarSystemObject.angle_rad originCx unitXCx 0 ∧
     SolarSystemObject.angle_rad originCx unitXCx 0 < TAU ∧
     0 ≤ SolarSystemObject.angle_deg originCx unitXCx 0 ∧
     SolarSystemObject.angle_deg originCx unitXCx 0 < 360 ∧
     (sign_lookup (SolarSystemObject.angle_deg originCx unitXCx 0)).isSome = true) := by
  have h : SolarSystemObject.xy originCx 0 ≠ SolarSystemObject.xy unitXCx 0 := by
    norm_num [originCx, unitXCx, SolarSystemObject.xy, StaticObject.xy, Point2D.mk.injEq]
  exact ⟨h, angle_in_range_and_sign_total originCx unitXCx 0 h⟩

/-- Counterexample to C8 as stated: for the static fixture and
num_points 1 the trajectory holds a single sample, not num_points + 1. -/
theorem trajectory_static_counterexample :
    (SolarSystemObject.trajectory_3d sunCx 0 1).length ≠ 2 := by
  simp [sunCx, SolarSystemObject.trajectory_3d]

/-- C8 amended: for every non-Static object and num_points at least 1,
trajectory_3d and trajectory_2d return exactly num_points + 1 positions,
sample i being the position at start_time + i * T / num_points where T is
the orbital period at start_time, each sample recomputed independently. -/
theorem trajectory_sample_spec (obj : SolarSystemObject) (start : ℝ) (n : ℤ)
    (hns : SolarSystemObject.isStatic obj = false) (hn : 1 ≤ n) :
    ∀ T, SolarSystemObject.orbital_period obj start = some T →
      (SolarSystemObject.trajectory_3d obj start n).length = n.toNat + 1 ∧
      (∀ i : ℕ, i ≤ n.toNat →
        (SolarSystemObject.trajectory_3d obj start n)[i]? =
          some (SolarSystemObject.xyz obj ((i : ℝ) * T / (n : ℝ) + start))) ∧
      (SolarSystemObject.trajectory_2d obj start n).length = n.toNat + 1 ∧
      (∀ i : ℕ, i ≤ n.toNat →
        (SolarSystemObject.trajectory_2d obj start n)[i]? =
          some (SolarSystemObject.xy obj ((i : ℝ) * T / (n : ℝ) + start))) := by
  intro T hT
  have hlen : (n + 1).toNat = n.toNat + 1 := by omega
  have htraj3 : SolarSystemObject.trajectory_3d obj start n =
      (List.range ((n + 1).toNat)).map
        (fun (x : ℕ) => SolarSystemObject.xyz obj ((x : ℝ) * T / (n : ℝ) + start)) := by
    cases obj with
    | static name c s => simp [SolarSystemObject.isStatic] at hns
    | orbit name c o =>
      simp only [SolarSystemObject.trajectory_3d, f64Unwrap, hT, Option.getD_some]
    | var name c f =>
      simp only [SolarSystemObject.trajectory_3d, f64Unwrap, hT, Option.getD_some]
  have htraj2 : SolarSystemObject.trajectory_2d obj start n =
      (List.range ((n + 1).toNat)).map
        (fun (x : ℕ) => SolarSystemObject.xy obj ((x : ℝ) * T / (n : ℝ) + start)) := by
    cases obj with
    | static name c s => simp [SolarSystemObject.isStatic] at hns
    | orbit name c o =>
      simp only [SolarSystemObject.trajectory_2d, f64Unwrap, hT, Option.getD_some]
    | var name c f =>
      simp only [SolarSystemObject.trajectory_2d, f64Unwrap, hT, Option.getD_some]
  refine ⟨?_, fun i hi => ?_, ?_, fun i hi => ?_⟩
  · rw [htraj3]
    simp only [List.length_map, List.length_range, hlen]
  · rw [htraj3]
    rw [List.getElem?_map, List.getElem?_range (by omega : i < (n + 1).toNat)]
    rfl
  · rw [htraj2]
    simp only [List.length_map, List.length_range, hlen]
  · rw [htraj2]
    rw [List.getElem?_map, List.getElem?_range (by omega : i < (n + 1).toNat)]
    rfl

/-- Witness for the amended C8 at the concrete orbiting planet with one
sampling interval. -/
theorem trajectory_sample_spec_witness :
    (SolarSystemObject.trajectory_3d planetObjCx 0 1).length = (1 : ℤ).toNat + 1 := by
  have hns : SolarSystemObject.isStatic planetObjCx = false := by
    simp [planetObjCx, SolarSystemObject.isStatic]
  have hsome : SolarSystemObject.orbital_period planetObjCx 0 =
      some (Orbitor.orbital_period planetCx 0) := by
    simp [planetObjCx, SolarSystemObject.orbital_period]
  exact ((trajectory_sample_spec planetObjCx 0 1 hns (by norm_num)) _ hsome).1

/-- The linear scan helper returns none exactly when no index in its range
satisfies the test. -/
theorem firstHitAux_eq_none_iff (test : ℕ → Bool) :
    ∀ (fuel i : ℕ), firstHitAux test i fuel = none ↔
      ∀ k, i ≤ k → k < i + fuel → test k = false := by
  intro fuel
  induction fuel with
  | zero =>
    intro i
    constructor
    · intro _ k hk1 hk2
      exact absurd hk2 (by omega)
    · intro _
      rfl
  | succ m ih =>
    intro i
    simp only [firstHitAux]
    by_cases h : test i = true
    · simp only [h, if_true]
      constructor
      · intro hsome
        exact absurd hsome (by simp)
      · intro hall
        have hfi := hall i le_rfl (by omega)
        rw [h] at hfi
        exact absurd hfi (by simp)
    · have hf : test i = false := by rwa [Bool.not_eq_true] at h
      rw [if_neg h, ih (i + 1)]
      constructor
      · intro hrec k hk1 hk2
        rcases eq_or_lt_of_le hk1 with rfl | hlt
        · exact hf
        · exact hrec k (by omega) (by omega)
      · intro hall k hk1 hk2
        exact hall k (by omega) (by omega)

/-- The linear scan helper returns an index exactly when it is the first
index in its range satisfying the test. -/
theorem firstHitAux_eq_some_iff (test : ℕ → Bool) :
    ∀ (fuel i k : ℕ), firstHitAux test i fuel = some k ↔
      (i ≤ k ∧ k < i + fuel ∧ test k = true ∧
        ∀ j, i ≤ j → j < k → test j = false) := by
  intro fuel
  induction fuel with
  | zero =>
    intro i k
    simp only [firstHitAux]
    constructor
    · intro hc
      exact absurd hc (by simp)
    · rintro ⟨h1, h2, _, _⟩
      exact absurd h2 (by omega)
  | succ m ih =>
    intro i k
    simp only [firstHitAux]
    by_cases h : test i = true
    · simp only [h, if_true]
      constructor
      · intro hsome
        have hik : i = k := by
          injection hsome
        subst hik
        exact ⟨le_rfl, by omega, h, fun j hj1 hj2 => absurd hj2 (by omega)⟩
      · rintro ⟨h1, h2, h3, h4⟩
        have hik : i = k := by
          by_contra hne
          have hfalse := h4 i le_rfl (by omega)
          rw [h] at hfalse
          exact absurd hfalse (by simp)
        rw [hik]
    · have hf : test i = false := by rwa [Bool.not_eq_true] at h
      rw [if_neg h, ih (i + 1) k]
      constructor
      · rintro ⟨h1, h2, h3, h4⟩
        refine ⟨by omega, by omega, h3, fun j hj1 hj2 => ?_⟩
        rcases eq_or_lt_of_le hj1 with rfl | hlt
        · exact hf
        · exact h4 j (by omega) hj2
      · rintro ⟨h1, h2, h3, h4⟩
        have hik : i ≠ k := by
          rintro rfl
          exact absurd h3 (by simp [hf])
        exact ⟨by omega, by omega, h3, fun j hj1 hj2 => h4 j (by omega) hj2⟩

/-- The scan over indices below n returns none exactly when no index below
n satisfies the test. -/
theorem firstHit_eq_none_iff (test : ℕ → Bool) (n : ℕ) :
    firstHit test n = none ↔ ∀ k, k < n → test k = false := by
  rw [firstHit, firstHitAux_eq_none_iff]
  constructor
  · intro h k hk
    exact h k (by omega) (by omega)
  · intro h k _ hk
    exact h k (by omega)

/-- The scan over indices below n returns an index exactly when it is the
first one below n satisfying the test. -/
theorem firstHit_eq_some_iff (test : ℕ → Bool) (n k : ℕ) :
    firstHit test n = some k ↔
      (k < n ∧ test k = true ∧ ∀ j, j < k → test j = false) := by
  rw [firstHit, firstHitAux_eq_some_iff]
  constructor
  · rintro ⟨h1, h2, h3, h4⟩
    exact ⟨by omega, h3, fun j hj => h4 j (by omega) hj⟩
  · rintro ⟨h1, h2, h3⟩
    exact ⟨by omega, by omega, h2, fun j _ hj => h3 j hj⟩

/-- C6 (spec-modelled): next_time_in_sector returns none when either name
lookup fails; otherwise it scans one day at a time over the window given by
the floored product of the two periods (defaulting each to 1 when absent),
testing the bearing of the reference body as seen from the target body
against the sector range; it returns none when the window is exhausted
without a hit, and on the first in-sector day it returns the first
in-sector second-granularity instant counted from the previous day
boundary, or the day-level instant when no second-level instant is
in-sector. -/
theorem next_time_in_sector_spec (sys : PlanetarySystem) (body_name sector_name : String)
    (start_time : ℝ) :
    (lookup_body sys body_name = none ∨
        sector_angle_range sys.zodiac sector_name = none →
      next_time_in_sector sys body_name sector_name start_time = none) ∧
    (∀ body lo hi,
      lookup_body sys body_name = some body →
      sector_angle_range sys.zodiac sector_name = some (lo, hi) →
      ∀ maxDays : ℕ, maxDays =
        (⌊((SolarSystemObject.orbital_period body start_time).getD 1) *
          ((SolarSystemObject.orbital_period sys.refBody start_time).getD 1)⌋).toNat →
      ((∀ d : ℕ, d < maxDays →
          in_sector lo hi (SolarSystemObject.angle_deg sys.refBody body
            (start_time + ((d : ℝ) + 1) * DAY)) = false) →
        next_time_in_sector sys body_name sector_name start_time = none) ∧
      (∀ d : ℕ, d < maxDays →
        in_sector lo hi (SolarSystemObject.angle_deg sys.refBody body
          (start_time + ((d : ℝ) + 1) * DAY)) = true →
        (∀ j : ℕ, j < d →
          in_sector lo hi (SolarSystemObject.angle_deg sys.refBody body
            (start_time + ((j : ℝ) + 1) * DAY)) = false) →
        ((∀ s : ℕ, s < 86400 →
            in_sector lo hi (SolarSystemObject.angle_deg sys.refBody body
              (start_time + (d : ℝ) * DAY + (s : ℝ) * SECOND)) = false) →
          next_time_in_sector sys body_name sector_name start_time =
            some (start_time + ((d : ℝ) + 1) * DAY)) ∧
        (∀ s : ℕ, s < 86400 →
          in_sector lo hi (SolarSystemObject.angle_deg sys.refBody body
            (start_time + (d : ℝ) * DAY + (s : ℝ) * SECOND)) = true →
          (∀ r : ℕ, r < s →
            in_sector lo hi (SolarSystemObject.angle_deg sys.refBody body
              (start_time + (d : ℝ) * DAY + (r : ℝ) * SECOND)) = false) →
          next_time_in_sector sys body_name sector_name start_time =
            some (start_time + (d : ℝ) * DAY + (s : ℝ) * SECOND)))) := by
  constructor
  · rintro (h | h)
    · rcases hs : sector_angle_range sys.zodiac sector_name with _ | ⟨lo, hi⟩ <;>
        simp [next_time_in_sector, h, hs]
    · rcases hb : lookup_body sys body_name with _ | body <;>
        simp [next_time_in_sector, h, hb]
  · intro body lo hi hb hsec maxDays hmax
    subst hmax
    constructor
    · intro hnone
      have h1 : firstHit
          (fun d => in_sector lo hi (SolarSystemObject.angle_deg sys.refBody body
            (start_time + ((d : ℝ) + 1) * DAY)))
          ((⌊((SolarSystemObject.orbital_period body start_time).getD 1) *
            ((SolarSystemObject.orbital_period sys.refBody start_time).getD 1)⌋).toNat) =
          none :=
        (firstHit_eq_none_iff _ _).mpr (fun k hk => hnone k hk)
      simp only [next_time_in_sector, hb, hsec, h1]
    · intro d hd htest hprev
      have hday : firstHit
          (fun d' => in_sector lo hi (SolarSystemObject.angle_deg sys.refBody body
            (start_time + ((d' : ℝ) + 1) * DAY)))
          ((⌊((SolarSystemObject.orbital_period body start_time).getD 1) *
            ((SolarSystemObject.orbital_period sys.refBody start_time).getD 1)⌋).toNat) =
          some d :=
        (firstHit_eq_some_iff _ _ _).mpr ⟨hd, htest, fun j hj => hprev j hj⟩
      constructor
      · intro hsecnone
        have hsec2 : firstHit
            (fun s => in_sector lo hi (SolarSystemObject.angle_deg sys.refBody body
              (start_time + (d : ℝ) * DAY + (s : ℝ) * SECOND))) 86400 = none :=
          (firstHit_eq_none_iff _ _).mpr (fun k hk => hsecnone k hk)
        simp only [next_time_in_sector, hb, hsec, hday, hsec2]
      · intro s hs86 hstest hsprev
        have hsec2 : firstHit
            (fun s' => in_sector lo hi (SolarSystemObject.angle_deg sys.refBody body
              (start_time + (d : ℝ) * DAY + (s' : ℝ) * SECOND))) 86400 = some s :=
          (firstHit_eq_some_iff _ _ _).mpr ⟨hs86, hstest, fun r hr => hsprev r hr⟩
        simp only [next_time_in_sector, hb, hsec, hday, hsec2]

/-- Concrete fixture: a planetary system holding no bodies. -/
def emptySys : PlanetarySystem := ⟨[], originCx, []⟩

/-- Witness for C6: the body lookup fails on the empty system, so the
search returns none. -/
theorem next_time_in_sector_witness :
    next_time_in_sector emptySys "mars" "aries" 0 = none := by
  have h : lookup_body emptySys "mars" = none := rfl
  exact (next_time_in_sector_spec emptySys "mars" "aries" 0).1 (Or.inl h)

end
